import Mathlib

/-!
# Verification of the rustclaw agent-orchestration core

Shallow embedding, in Lean 4, of the parts of the `rustclaw` repository
that the specification's claims are about:

* the conversation context manager
  (`crates/rustclaw-provider/src/context.rs`),
* the agentic tool-calling loop
  (`crates/rustclaw-provider/src/lib.rs`, `complete_agentic`),
* the bash tool's safety gate
  (`crates/rustclaw-channel/src/lib.rs`, `BashTool::execute`),
* the MCP registry, configuration and client argument coercion
  (`crates/rustclaw-mcp/src/{registry,config,client}.rs`).

Modelling conventions:

* Rust `usize` arithmetic is modelled with `Nat`; `saturating_sub` is the
  truncated subtraction of `Nat`, `saturating_add` is `Nat` addition
  (overflow of a 64-bit counter is unreachable for the quantities involved
  and is not modelled).
* Rust `String` is Lean `String`; `str::len` (a byte count) is modelled with
  `String.length` (a char count) — the two agree on ASCII data, and no claim
  depends on the distinction.  `str::contains` (byte-substring search) is
  modelled as char-list infix search, which is equivalent for the ASCII
  search patterns that appear in the source.
* `Uuid::new_v4()` and `Utc::now()` are environment inputs; turn
  constructors therefore take the fresh id as an explicit argument, and
  timestamps (which no claim observes) are omitted from the records.
* `VecDeque` is modelled as a `List` whose head is the front of the deque.
* `HashMap`/`HashSet` are modelled as association lists / lists with
  membership lookup; the registry's map keys (server names) are distinct.
-/

namespace Rustclaw

/-- `Role` from `crates/rustclaw-types/src/lib.rs`. -/
inductive Role where
  | system
  | user
  | assistant
  | tool
deriving DecidableEq, Repr

/-- `FunctionCall` from `crates/rustclaw-types/src/lib.rs`:
the function name and JSON-encoded argument string of a model tool call. -/
structure FunctionCall where
  name : String
  arguments : String
deriving DecidableEq, Repr

/-- `ToolCall` from `crates/rustclaw-types/src/lib.rs`. -/
structure ToolCall where
  id : String
  call_type : String
  function : FunctionCall
deriving DecidableEq, Repr

/-- `ToolResult` from `crates/rustclaw-types/src/lib.rs`. -/
structure ToolResult where
  tool_call_id : String
  output : String
deriving DecidableEq, Repr

/-- `CompletionResponse` from `crates/rustclaw-types/src/lib.rs`. -/
structure CompletionResponse where
  content : Option String
  tool_calls : List ToolCall
  finish_reason : String
deriving DecidableEq, Repr

/-- `CompletionResponse::has_tool_calls`. -/
def CompletionResponse.has_tool_calls (r : CompletionResponse) : Bool :=
  !r.tool_calls.isEmpty

/-- `ChatMessage` from `crates/rustclaw-types/src/lib.rs`. -/
structure ChatMessage where
  role : Role
  content : Option String
  name : Option String
  tool_calls : Option (List ToolCall)
  tool_call_id : Option String
deriving DecidableEq, Repr

/-- `ChatMessage::system`. -/
def ChatMessage.system (content : String) : ChatMessage :=
  { role := Role.system
    content := some content
    name := none
    tool_calls := none
    tool_call_id := none }

/-! ## Context manager (`crates/rustclaw-provider/src/context.rs`) -/

/-- `DEFAULT_CONTEXT_WINDOW` (context.rs line 23). -/
def DEFAULT_CONTEXT_WINDOW : Nat := 128000

/-- `RECENT_TURNS_TO_KEEP` (context.rs line 29). -/
def RECENT_TURNS_TO_KEEP : Nat := 10

/-- `ConversationTurn` (context.rs lines 36-47); the `timestamp` field is
omitted (no claim observes it). -/
structure ConversationTurn where
  id : String
  role : Role
  content : Option String
  tool_calls : Option (List ToolCall)
  tool_call_id : Option String
  token_count : Nat
  is_summarized : Bool
  is_masked : Bool
deriving DecidableEq, Repr

/-- `ConversationTurn::user` (context.rs lines 50-63); the fresh
`Uuid::new_v4()` value is taken as the explicit argument `id`. -/
def ConversationTurn.user (id : String) (content : String) : ConversationTurn :=
  { id := id
    role := Role.user
    content := some content
    tool_calls := none
    tool_call_id := none
    token_count := 0
    is_summarized := false
    is_masked := false }

/-- `ConversationTurn::assistant` (context.rs lines 65-78). -/
def ConversationTurn.assistant (id : String) (content : String) : ConversationTurn :=
  { ConversationTurn.user id content with role := Role.assistant }

/-- `ConversationTurn::tool_result` (context.rs lines 94-107). -/
def ConversationTurn.tool_result (id : String) (tool_call_id : String)
    (content : String) : ConversationTurn :=
  { id := id
    role := Role.tool
    content := some content
    tool_calls := none
    tool_call_id := some tool_call_id
    token_count := 0
    is_summarized := false
    is_masked := false }

/-- `ConversationTurn::estimate_tokens` (context.rs lines 110-123): content
length divided by 4, plus, for each tool call, function-name length and
argument length each divided by 4; floored at 1.  In Rust this mutates
`self.token_count` and returns it; here it returns the updated turn. -/
def ConversationTurn.estimate_tokens (t : ConversationTurn) : ConversationTurn :=
  let contentCount := match t.content with
    | some c => c.length / 4
    | none => 0
  let callCount := match t.tool_calls with
    | some calls =>
        (calls.map (fun c => c.function.name.length / 4 + c.function.arguments.length / 4)).sum
    | none => 0
  { t with token_count := max (contentCount + callCount) 1 }

/-- `ConversationTurn::to_chat_message` (context.rs lines 126-134). -/
def ConversationTurn.to_chat_message (t : ConversationTurn) : ChatMessage :=
  { role := t.role
    content := t.content
    name := none
    tool_calls := t.tool_calls
    tool_call_id := t.tool_call_id }

/-- `ConversationTurn::masked` (context.rs lines 137-144). -/
def ConversationTurn.masked (t : ConversationTurn) : ConversationTurn :=
  { t with
    is_masked := true
    content := some "[Previous context omitted for brevity]"
    tool_calls := none
    token_count := 10 }

/-- `ConversationSummary` (context.rs lines 152-160); `timestamp` omitted. -/
structure ConversationSummary where
  id : String
  turns_covered : List String
  summary : String
  key_facts : List String
  token_count : Nat
deriving DecidableEq, Repr

/-- `ContextStrategy` (context.rs lines 163-173). -/
inductive ContextStrategy where
  | none
  | slidingWindow
  | summarization
  | hybrid
deriving DecidableEq, Repr

/-- `ContextManager` (context.rs lines 176-191).  `turns` is the `VecDeque`
with its front at the list head. -/
structure ContextManager where
  turns : List ConversationTurn
  summaries : List ConversationSummary
  strategy : ContextStrategy
  max_tokens : Nat
  recent_turns : Nat
  system_prompt : String
  total_tokens : Nat
deriving Repr

namespace ContextManager

/-- `ContextManager::new` (context.rs lines 200-210). -/
def new : ContextManager :=
  { turns := []
    summaries := []
    strategy := ContextStrategy.hybrid
    max_tokens := DEFAULT_CONTEXT_WINDOW
    recent_turns := RECENT_TURNS_TO_KEEP
    system_prompt := ""
    total_tokens := 0 }

/-- `ContextManager::with_strategy`. -/
def with_strategy (cm : ContextManager) (strategy : ContextStrategy) : ContextManager :=
  { cm with strategy := strategy }

/-- `ContextManager::with_max_tokens`. -/
def with_max_tokens (cm : ContextManager) (max_tokens : Nat) : ContextManager :=
  { cm with max_tokens := max_tokens }

/-- `ContextManager::with_system_prompt`. -/
def with_system_prompt (cm : ContextManager) (prompt : String) : ContextManager :=
  { cm with system_prompt := prompt }

/-- `ContextManager::should_compress` (context.rs lines 240-243).
The Rust threshold is `(max_tokens as f32 * COMPRESSION_THRESHOLD) as usize`
with `COMPRESSION_THRESHOLD = 0.75`; for every `max_tokens` whose product
with 0.75 is exactly representable in `f32` (in particular all values up to
`2^22`, and the default 128000) this equals `3 * max_tokens / 4` rounded
toward zero, which is how it is modelled. -/
def should_compress (cm : ContextManager) : Bool :=
  let threshold := 3 * cm.max_tokens / 4
  decide (threshold < cm.total_tokens) && decide (cm.recent_turns < cm.turns.length)

/-- The masking pass of `apply_sliding_window` (context.rs lines 277-287):
mask the first `k` turns that are neither masked nor summarized, and return
the new turn list together with the accumulated
`old.saturating_sub(new)` token savings. -/
def maskOldest : List ConversationTurn → Nat → List ConversationTurn × Nat
  | ts, 0 => (ts, 0)
  | [], _ + 1 => ([], 0)
  | t :: ts, k + 1 =>
    let rest := maskOldest ts k
    if !t.is_masked && !t.is_summarized then
      (t.masked :: rest.1, (t.token_count - t.masked.token_count) + rest.2)
    else
      (t :: rest.1, rest.2)

/-- `ContextManager::apply_sliding_window` (context.rs lines 265-291). -/
def apply_sliding_window (cm : ContextManager) : ContextManager :=
  let turns_to_mask := cm.turns.length - cm.recent_turns
  if turns_to_mask = 0 then cm
  else
    let masked := maskOldest cm.turns turns_to_mask
    { cm with turns := masked.1, total_tokens := cm.total_tokens - masked.2 }

/-- `ContextManager::apply_hybrid_compression` (context.rs lines 294-303):
sliding-window masking; the 90%-of-budget check only logs a recommendation
and changes no state. -/
def apply_hybrid_compression (cm : ContextManager) : ContextManager :=
  cm.apply_sliding_window

/-- `ContextManager::compress` (context.rs lines 246-262); the `None` and
`Summarization` arms only log and leave the state unchanged. -/
def compress (cm : ContextManager) : ContextManager :=
  match cm.strategy with
  | ContextStrategy.none => cm
  | ContextStrategy.slidingWindow => cm.apply_sliding_window
  | ContextStrategy.summarization => cm
  | ContextStrategy.hybrid => cm.apply_hybrid_compression

/-- `ContextManager::add_turn` (context.rs lines 228-237). -/
def add_turn (cm : ContextManager) (turn : ConversationTurn) : ContextManager :=
  let turn := turn.estimate_tokens
  let cm := { cm with
    total_tokens := cm.total_tokens + turn.token_count
    turns := cm.turns ++ [turn] }
  if cm.should_compress then cm.compress else cm

/-- `ContextManager::get_turns_to_summarize` (context.rs lines 306-314):
iterate the deque in reverse, skip `max(recent_turns, 5)` entries, keep the
non-summarized ones — so the returned list is in newest-first order. -/
def get_turns_to_summarize (cm : ContextManager) : List ConversationTurn :=
  (cm.turns.reverse.drop (max cm.recent_turns 5)).filter (fun t => !t.is_summarized)

/-- The system-role turn that `apply_summary` inserts at the front of the
deque (context.rs lines 335-345). -/
def summaryTurn (summary : ConversationSummary) : ConversationTurn :=
  { id := summary.id
    role := Role.system
    content := some ("[Conversation Summary]\n" ++ summary.summary)
    tool_calls := none
    tool_call_id := none
    token_count := summary.token_count
    is_summarized := true
    is_masked := false }

/-- `ContextManager::apply_summary` (context.rs lines 317-354): drop every
turn whose id is in the covered set (accumulating their token counts),
adjust the running total, push the summary turn at the front, and append the
summary to the summaries list. -/
def apply_summary (cm : ContextManager) (summary : ConversationSummary) : ContextManager :=
  let removed_tokens :=
    ((cm.turns.filter (fun t => summary.turns_covered.contains t.id)).map
      (fun t => t.token_count)).sum
  let kept := cm.turns.filter (fun t => !summary.turns_covered.contains t.id)
  { cm with
    turns := summaryTurn summary :: kept
    summaries := cm.summaries ++ [summary]
    total_tokens := cm.total_tokens - removed_tokens + summary.token_count }

/-- The system message a stored summary is rendered to by `get_messages`
(context.rs lines 366-372). -/
def summaryMessage (s : ConversationSummary) : ChatMessage :=
  ChatMessage.system
    ("[Previous Conversation Summary]\n" ++ s.summary ++ "\nKey facts: "
      ++ String.intercalate ", " s.key_facts)

/-- `ContextManager::get_messages` (context.rs lines 357-380). -/
def get_messages (cm : ContextManager) : List ChatMessage :=
  (if cm.system_prompt = "" then [] else [ChatMessage.system cm.system_prompt])
    ++ cm.summaries.map summaryMessage
    ++ cm.turns.map ConversationTurn.to_chat_message

/-- `ContextStats` (context.rs lines 418-427); the derived `utilization`
float is omitted. -/
structure ContextStats where
  total_turns : Nat
  total_summaries : Nat
  estimated_tokens : Nat
  max_tokens : Nat
  masked_turns : Nat
  summarized_turns : Nat
deriving DecidableEq, Repr

/-- `ContextManager::stats` (context.rs lines 383-393). -/
def stats (cm : ContextManager) : ContextStats :=
  { total_turns := cm.turns.length
    total_summaries := cm.summaries.length
    estimated_tokens := cm.total_tokens
    max_tokens := cm.max_tokens
    masked_turns := (cm.turns.filter (fun t => t.is_masked)).length
    summarized_turns := (cm.turns.filter (fun t => t.is_summarized)).length }

/-- `ContextManager::clear` (context.rs lines 396-401). -/
def clear (cm : ContextManager) : ContextManager :=
  { cm with turns := [], summaries := [], total_tokens := 0 }

end ContextManager

/-- A call of `add_turn` or `apply_summary` on a context manager; the claims
about the context manager quantify over sequences of these calls. -/
inductive ContextOp where
  | addTurn (t : ConversationTurn)
  | applySummary (s : ConversationSummary)
deriving Repr

/-- Apply one `ContextOp` to a context manager. -/
def ContextOp.run (cm : ContextManager) : ContextOp → ContextManager
  | ContextOp.addTurn t => cm.add_turn t
  | ContextOp.applySummary s => cm.apply_summary s

/-- Run a sequence of `add_turn`/`apply_summary` calls, oldest first. -/
def runOps (cm : ContextManager) (ops : List ContextOp) : ContextManager :=
  ops.foldl ContextOp.run cm

/-- The token counts summed over a list of turns. -/
def sumTokens (ts : List ConversationTurn) : Nat :=
  (ts.map (fun t => t.token_count)).sum

/-- The token counts summed over a list of summaries. -/
def sumSummaryTokens (ss : List ConversationSummary) : Nat :=
  (ss.map (fun s => s.token_count)).sum

/-! ## Agentic loop (`crates/rustclaw-provider/src/lib.rs`,
`ProviderService::complete_agentic`, lines 214-271)

`complete_with_tools` performs the network call to the completion endpoint;
inside `complete_agentic` it is invoked with the unchanging
`current_messages`/`current_prompt` and the per-iteration `tool_results`.
The endpoint is therefore modelled as a function from the injected tool
results (`none` on the first iteration) to the `CompletionResponse` it
returns, and tool execution (`execute_tool_calls`) as a function from a
`ToolCall` to its `ToolResult`.  The model returns, alongside the answer
string, the number of endpoint calls made, which the Rust code performs but
does not return. -/

/-- `response.content.as_ref().is_none_or(|c| c.trim().is_empty())`
(lib.rs lines 234-237): absent content, or content all of whose characters
are whitespace — `trim()` removes exactly the leading and trailing
whitespace, so the trimmed string is empty iff every character is
whitespace.  (Unicode whitespace beyond ASCII is not exercised by any
claim, and `String.trim` is stated this way to keep the definition
kernel-evaluable.) -/
def contentIsEmpty (content : Option String) : Bool :=
  match content with
  | none => true
  | some c => c.data.all Char.isWhitespace

/-- The `last_tool_output` update loop of `complete_agentic` (lib.rs lines
250-263): after executing the calls of one response, `last_tool_output` is
`Some` of the last result's output (or the previous value when the result
list is empty, which cannot happen on the tool-call branch). -/
def updateLastOutput (results : List ToolResult) (last : Option String) : Option String :=
  results.foldl (fun _ r => some r.output) last

/-- The `for iteration in 0..max_iterations` loop of `complete_agentic`
(lib.rs lines 221-267), with the remaining iteration count as fuel.
Returns the answer string and the number of endpoint calls made. -/
def completeAgenticLoop (endpoint : Option (List ToolResult) → CompletionResponse)
    (exec : ToolCall → ToolResult) :
    Nat → Option (List ToolResult) → Option String → String × Nat
  | 0, _, _ => ("[Max tool iterations reached]", 0)
  | fuel + 1, tool_results, last_tool_output =>
    let response := endpoint tool_results
    if response.has_tool_calls then
      let results := response.tool_calls.map exec
      let last := updateLastOutput results last_tool_output
      let rec_result := completeAgenticLoop endpoint exec fuel (some results) last
      (rec_result.1, rec_result.2 + 1)
    else
      if contentIsEmpty response.content then
        match last_tool_output with
        | some output => (output, 1)
        | none => (response.content.getD "", 1)
      else
        (response.content.getD "", 1)

/-- `ProviderService::complete_agentic` (lib.rs lines 214-271): iteration 0
starts with no pending tool results and no recorded tool output. -/
def complete_agentic (endpoint : Option (List ToolResult) → CompletionResponse)
    (exec : ToolCall → ToolResult) (max_iterations : Nat) : String × Nat :=
  completeAgenticLoop endpoint exec max_iterations none none

/-! ## JSON values (`serde_json::Value`) -/

/-- `serde_json::Value`.  Numbers are modelled as integers (the claims only
exercise booleans and strings); objects keep their fields as an association
list. -/
inductive Json where
  | null
  | bool (b : Bool)
  | num (n : Int)
  | str (s : String)
  | arr (elems : List Json)
  | obj (fields : List (String × Json))

/-- `Value::get(key)` for object values. -/
def Json.get (j : Json) (key : String) : Option Json :=
  match j with
  | Json.obj fields => (fields.find? (fun kv => kv.1 == key)).map (fun kv => kv.2)
  | _ => none

/-- `Value::as_str`. -/
def Json.as_str : Json → Option String
  | Json.str s => some s
  | _ => none

/-- `Value::as_bool`. -/
def Json.as_bool : Json → Option Bool
  | Json.bool b => some b
  | _ => none

/-- `Value::is_object`. -/
def Json.isObj : Json → Bool
  | Json.obj _ => true
  | _ => false

/-- Rust `str::contains(pattern)`: byte-substring search, modelled as
char-list infix search (equivalent for the ASCII patterns of the source). -/
def strContains (s pattern : String) : Bool :=
  decide (pattern.data <:+: s.data)

/-! ## Bash tool safety gate (`crates/rustclaw-channel/src/lib.rs`,
`BashTool::execute`, lines 354-456) -/

/-- `SENSITIVE_PATTERNS` (channel lib.rs lines 14-19). -/
def SENSITIVE_PATTERNS : List String :=
  [".ssh/", "id_rsa", "id_ed25519", ".pem", ".key",
   ".pgp", ".gnupg", "credentials", "secrets", ".env",
   "password", "token", "api_key", "apikey",
   ".aws/", ".kube/", ".docker/"]

/-- The `dangerous` always-blocked pattern list (channel lib.rs line 377).
The braces of the fork-bomb string are written with `\x7b`/`\x7d` escapes. -/
def dangerousPatterns : List String :=
  ["rm -rf /", "sudo ", "sudo\t", "mkfs", "dd if=", "> /dev/sd",
   ":()\x7b :|:& \x7d;:"]

/-- The `destructive_patterns` list (channel lib.rs line 407). -/
def destructivePatterns : List String :=
  ["rm ", "rm -", "rmdir", "del ", "format ", "shred "]

/-- What `BashTool::execute` does with a given arguments object, up to the
point where it would spawn a process: either it returns early with a
structured JSON result and spawns nothing (`reply`), errors out on a missing
`command` argument (`missingCommand`, the `Err` branch), or it reaches
`std::process::Command::new("bash")` and spawns the command (`spawn`).  The
stdout/stderr of an actual spawn depend on the operating system and are not
modelled. -/
inductive BashAction where
  | missingCommand
  | reply (result : Json)
  | spawn (command : String)

/-- The blocked-result JSON (channel lib.rs lines 380-384). -/
def blockedResult (pattern : String) : Json :=
  Json.obj
    [("success", Json.bool false),
     ("blocked", Json.bool true),
     ("error", Json.str ("Command blocked: contains unsafe pattern '"
        ++ pattern.trim ++ "'"))]

/-- The sensitive-file needs-confirmation JSON (channel lib.rs lines 391-400). -/
def sensitiveResult (pattern : String) : Json :=
  Json.obj
    [("success", Json.bool false),
     ("needs_confirmation", Json.bool true),
     ("confirmation_type", Json.str "sensitive_file"),
     ("error", Json.str ("⚠️ SENSITIVE FILE DETECTED: The command appears to access '"
        ++ pattern
        ++ "' which may contain secrets, keys, or credentials.\n\nPlease ask the user: \"This command may access sensitive files. Do you want me to proceed?\""))]

/-- The destructive needs-confirmation JSON (channel lib.rs lines 410-418). -/
def destructiveResult (command : String) : Json :=
  Json.obj
    [("success", Json.bool false),
     ("needs_confirmation", Json.bool true),
     ("confirmation_type", Json.str "destructive"),
     ("error", Json.str ("⚠️ DESTRUCTIVE COMMAND: '"
        ++ command
        ++ "'\n\nThis will delete files. Please ask the user: \"This command will delete files. Are you sure you want to proceed?\""))]

namespace BashTool

/-- `BashTool::execute` (channel lib.rs lines 354-456), translated check by
check in source order: extract `command` (error if absent or not a string),
read the confirmation flags (defaulting to `false`), refuse on the first
matching always-blocked pattern, then — unless confirmed — on the first
matching sensitive pattern, then — unless confirmed — on the first matching
destructive pattern, and only then spawn the process.  The unused `timeout`
extraction has no observable effect and is omitted. -/
def execute (args : Json) : BashAction :=
  match (args.get "command").bind Json.as_str with
  | none => BashAction.missingCommand
  | some command =>
    let confirm_destructive := ((args.get "confirm_destructive").bind Json.as_bool).getD false
    let confirm_sensitive := ((args.get "confirm_sensitive").bind Json.as_bool).getD false
    match dangerousPatterns.find? (fun p => strContains command p) with
    | some pattern => BashAction.reply (blockedResult pattern)
    | none =>
      match if confirm_sensitive then none
            else SENSITIVE_PATTERNS.find? (fun p => strContains command p) with
      | some pattern => BashAction.reply (sensitiveResult pattern)
      | none =>
        match if confirm_destructive then none
              else destructivePatterns.find? (fun p => strContains command p) with
        | some _ => BashAction.reply (destructiveResult command)
        | none => BashAction.spawn command

end BashTool

/-! ## MCP configuration and registry
(`crates/rustclaw-mcp/src/{config,registry,client}.rs`) -/

/-- `TransportConfig` (mcp config.rs lines 52-85). -/
inductive TransportConfig where
  | HTTP (url : String) (headers : List (String × String))
  | Stdio (command : String) (args : List String) (env : List (String × String))
deriving DecidableEq, Repr

/-- `MCPServerConfig` (mcp config.rs lines 33-48). -/
inductive MCPServerConfig where
  | Simple (s : String)
  | Advanced (transport : TransportConfig) (startup_timeout : Option Nat)
deriving DecidableEq, Repr

/-- `MCPConfig` (mcp config.rs lines 8-17); `servers` is the `HashMap` as an
association list. -/
structure MCPConfig where
  startup_timeout : Nat
  servers : List (String × MCPServerConfig)
deriving Repr

/-- `MCPServerConfig::get_timeout` (mcp config.rs lines 156-165), in
seconds: `Duration::from_secs(x).as_secs() = x`, so the `Duration` layer is
elided. -/
def MCPServerConfig.get_timeout : MCPServerConfig → Nat → Nat
  | MCPServerConfig.Simple _, global_timeout => global_timeout
  | MCPServerConfig.Advanced _ startup_timeout, global_timeout =>
      startup_timeout.getD global_timeout

/-- The overall startup timeout (in seconds) that `MCPToolRegistry::start_all`
applies to one server's whole startup sequence (mcp registry.rs line 44:
`config.get_timeout(10).as_secs()`, passed to `MCPClient::start` on line 51).
Note the fallback passed to `get_timeout` is the literal `10`, not the
`startup_timeout` field of the surrounding `MCPConfig`. -/
def startAllTimeoutSecs (_config : MCPConfig) (server : MCPServerConfig) : Nat :=
  server.get_timeout 10

/-- Comparison definition following the specification's words, to be held
against `startAllTimeoutSecs`: the timeout is "configurable per server,
falling back to a global default", the global default being the
`startup_timeout` carried by the `MCPConfig`. -/
def startAllTimeoutSpec (config : MCPConfig) (server : MCPServerConfig) : Nat :=
  server.get_timeout config.startup_timeout

/-- `MCPToolWrapper` (mcp tool_bridge.rs), restricted to the naming fields
that `to_tool_functions` fills in (mcp registry.rs lines 110-116); the
wrapped definition and the back-reference to the registry are not needed by
any claim. -/
structure MCPToolWrapper where
  server_name : String
  tool_name : String
  full_name : String
deriving DecidableEq, Repr

/-- `MCPToolRegistry::to_tool_functions` (mcp registry.rs lines 104-123):
for every connected client and every tool it discovered, build a wrapper
whose `full_name` is `format!("{}_{}", server_name, tool_name)`.  The
clients map is modelled as an association list from server name to the
names of the tools the client discovered. -/
def to_tool_functions (clients : List (String × List String)) : List MCPToolWrapper :=
  clients.flatMap (fun client =>
    client.2.map (fun tool =>
      { server_name := client.1
        tool_name := tool
        full_name := client.1 ++ "_" ++ tool }))

/-- The argument coercion of `MCPClient::call_tool` (mcp client.rs lines
258-270): an object is forwarded as is, `null` is forwarded as *absent*
arguments (`None`), and any other value is wrapped into the single-key
object `{"input": value}`. -/
def callToolArguments (args : Json) : Option (List (String × Json)) :=
  match args with
  | Json.obj fields => some fields
  | Json.null => none
  | other => some [("input", other)]

/-- Comparison definition following the specification's words, to be held
against `callToolArguments`: "non-object arguments are coerced into a
single-key wrapper object so that every call conforms to the protocol's
object-argument expectation" — every non-object value, null included,
becomes the single-key wrapper object. -/
def callToolArgumentsSpec (args : Json) : Option (List (String × Json)) :=
  match args with
  | Json.obj fields => some fields
  | other => some [("input", other)]

/-- Comparison definition following the specification's words, to be held
against `ContextManager.get_turns_to_summarize`: "all turns older than
`max(recent_turns, 5)` that are not yet summarized, oldest-first". -/
def getTurnsToSummarizeSpec (cm : ContextManager) : List ConversationTurn :=
  (cm.turns.take (cm.turns.length - max cm.recent_turns 5)).filter
    (fun t => !t.is_summarized)

/-! ## Concrete fixtures used by counterexamples and witnesses -/

/-- A manager driven by one `add_turn` and one `apply_summary` call under the
summarization strategy ("hello" estimates to 1 token; the summary carries 5). -/
def cmSummaryRun : ContextManager :=
  ((ContextManager.new.with_strategy ContextStrategy.summarization).add_turn
    (ConversationTurn.user "t0" "hello")).apply_summary
    { id := "s1", turns_covered := [], summary := "the user said hello",
      key_facts := ["greeting"], token_count := 5 }

/-- A manager holding twelve one-token user turns with ids `"0"` … `"11"`
(far below the compression threshold, so no masking occurs). -/
def cmTwelveTurns : ContextManager :=
  (List.range 12).foldl
    (fun cm i => cm.add_turn (ConversationTurn.user (toString i) ("msg " ++ toString i)))
    ContextManager.new

/-- A sample tool call returned by the stub endpoints. -/
def sampleCall : ToolCall :=
  { id := "c1", call_type := "function"
    function := { name := "f", arguments := "\x7b\x7d" } }

/-- A stub completion endpoint that always returns the non-empty text `"hi"`
and no tool calls. -/
def stubTextEndpoint : Option (List ToolResult) → CompletionResponse :=
  fun _ => { content := some "hi", tool_calls := [], finish_reason := "stop" }

/-- A stub completion endpoint that always requests one tool call. -/
def stubToolEndpoint : Option (List ToolResult) → CompletionResponse :=
  fun _ => { content := none, tool_calls := [sampleCall], finish_reason := "tool_calls" }

/-- A stub endpoint that requests a tool call on the first iteration and
afterwards answers with whitespace-only text and no tool calls. -/
def stubMixEndpoint : Option (List ToolResult) → CompletionResponse :=
  fun tr =>
    match tr with
    | none => { content := none, tool_calls := [sampleCall], finish_reason := "tool_calls" }
    | some _ => { content := some "  ", tool_calls := [], finish_reason := "stop" }

/-- A stub tool executor producing a recognisable output per call id. -/
def stubExec : ToolCall → ToolResult :=
  fun c => { tool_call_id := c.id, output := "out-" ++ c.id }

/-- The operation sequence of the token-accounting witness: one user turn,
then a summary covering it. -/
def tokenWitnessOps : List ContextOp :=
  [ContextOp.addTurn (ConversationTurn.user "t0" "hello"),
   ContextOp.applySummary
     { id := "s1", turns_covered := ["t0"], summary := "greeting",
       key_facts := [], token_count := 5 }]

/-- The summary applied in the summary-rendering witness. -/
def renderWitnessSummary : ConversationSummary :=
  { id := "s1", turns_covered := ["t0"], summary := "the user said hello",
    key_facts := ["greeting"], token_count := 5 }

/-- The operations run after `apply_summary` in the summary-rendering
witness. -/
def renderWitnessOps : List ContextOp :=
  [ContextOp.addTurn (ConversationTurn.user "t1" "more text")]

/-- Arguments of the safety-gate witness: a sensitive command without the
confirmation flag. -/
def sensitiveArgs : Json :=
  Json.obj [("command", Json.str "cat .ssh/id_rsa")]

/-- Arguments of the safety-gate witness: the same sensitive command with
`confirm_sensitive` set. -/
def confirmedSensitiveArgs : Json :=
  Json.obj [("command", Json.str "cat .ssh/id_rsa"), ("confirm_sensitive", Json.bool true)]

/-- Arguments of the always-blocked witness: a blocked command with both
confirmation flags set. -/
def blockedArgs : Json :=
  Json.obj [("command", Json.str "sudo rm -rf /tmp"),
            ("confirm_destructive", Json.bool true),
            ("confirm_sensitive", Json.bool true)]

/-! ## Theorems -/

/-- Every wrapper produced by `to_tool_functions` carries the namespaced
full name `server_name ++ "_" ++ tool_name`. -/
theorem full_name_of_mem_to_tool_functions {clients : List (String × List String)}
    {w : MCPToolWrapper} (h : w ∈ to_tool_functions clients) :
    w.full_name = w.server_name ++ "_" ++ w.tool_name := by
  simp only [to_tool_functions, List.mem_flatMap, List.mem_map] at h
  obtain ⟨client, _, tool, _, rfl⟩ := h
  rfl

/-- Right cancellation for string append. -/
theorem string_append_right_cancel {a b c : String} (h : a ++ c = b ++ c) : a = b := by
  have hd := congrArg String.data h
  simp only [String.data_append] at hd
  exact String.ext (List.append_cancel_right hd)

/-- Left cancellation for string append. -/
theorem string_append_left_cancel {a b c : String} (h : c ++ a = c ++ b) : a = b := by
  have hd := congrArg String.data h
  simp only [String.data_append] at hd
  exact String.ext (List.append_cancel_left hd)

/-- C3: in `MCPToolRegistry::start_all`, a server without a per-server
override gets the hard-coded 10-second fallback rather than the
`startup_timeout` value carried by the `MCPConfig` — evaluating the code and
the spec's timeout selection at a configuration whose global timeout is 30
seconds shows the divergence. -/
theorem c3_startup_timeout_bug :
    startAllTimeoutSecs
        { startup_timeout := 30,
          servers := [("slow", MCPServerConfig.Simple "sleep 9999")] }
        (MCPServerConfig.Simple "sleep 9999") = 10 ∧
    startAllTimeoutSpec
        { startup_timeout := 30,
          servers := [("slow", MCPServerConfig.Simple "sleep 9999")] }
        (MCPServerConfig.Simple "sleep 9999") = 30 := by
  exact ⟨rfl, rfl⟩

/-- C6 counterexample: the registry `[("a", ["b_c"]), ("a_b", ["c"])]` holds
two distinct (server name, tool name) entries whose namespaced names both
come out as `"a_b_c"`, so the claimed injectivity over all distinct pairs
fails. -/
theorem c6_namespacing_cex :
    to_tool_functions [("a", ["b_c"]), ("a_b", ["c"])] =
      [{ server_name := "a", tool_name := "b_c", full_name := "a_b_c" },
       { server_name := "a_b", tool_name := "c", full_name := "a_b_c" }] ∧
    (("a", "b_c") : String × String) ≠ ("a_b", "c") := by
  exact ⟨rfl, by decide⟩

/-- C6 (amended): two entries of the merged tool set that share their server
name or share their base tool name and collide on the namespaced full name
are the same (server name, tool name) entry; in particular two different
servers exposing a tool of the same base name get distinct namespaced
names.  (Distinct pairs that differ in both components can still collide, as
the counterexample shows.) -/
theorem c6_namespacing_amended (clients : List (String × List String))
    (w1 w2 : MCPToolWrapper)
    (h1 : w1 ∈ to_tool_functions clients) (h2 : w2 ∈ to_tool_functions clients) :
    (w1.tool_name = w2.tool_name → w1.server_name ≠ w2.server_name →
      w1.full_name ≠ w2.full_name) ∧
    (w1.server_name = w2.server_name → w1.tool_name ≠ w2.tool_name →
      w1.full_name ≠ w2.full_name) := by
  have e1 := full_name_of_mem_to_tool_functions h1
  have e2 := full_name_of_mem_to_tool_functions h2
  constructor
  · intro ht hs hfull
    rw [e1, e2, ht] at hfull
    exact hs (string_append_right_cancel (string_append_right_cancel hfull))
  · intro hs ht hfull
    rw [e1, e2, hs, String.append_assoc, String.append_assoc] at hfull
    exact ht (string_append_left_cancel (string_append_left_cancel hfull))

/-- C6 witness: in the registry where servers `"a"` and `"b"` both expose a
tool named `"t"`, the two wrappers' namespaced names differ. -/
theorem c6_namespacing_witness :
    ({ server_name := "a", tool_name := "t", full_name := "a_t" } : MCPToolWrapper).full_name ≠
      ({ server_name := "b", tool_name := "t", full_name := "b_t" } : MCPToolWrapper).full_name :=
  (c6_namespacing_amended [("a", ["t"]), ("b", ["t"])]
      { server_name := "a", tool_name := "t", full_name := "a_t" }
      { server_name := "b", tool_name := "t", full_name := "b_t" }
      (by simp [to_tool_functions]) (by simp [to_tool_functions])).1 rfl (by decide)

/-- C7 counterexample: on a manager holding twelve turns, the two turns
older than the newest `max(recent_turns, 5) = 10` are returned newest-first
(ids `["1", "0"]`), not oldest-first as claimed. -/
theorem c7_summarize_order_cex :
    cmTwelveTurns.get_turns_to_summarize ≠ getTurnsToSummarizeSpec cmTwelveTurns ∧
    (cmTwelveTurns.get_turns_to_summarize.map (fun t => t.id)) = ["1", "0"] ∧
    ((getTurnsToSummarizeSpec cmTwelveTurns).map (fun t => t.id)) = ["0", "1"] := by
  refine ⟨by decide, rfl, rfl⟩

/-- C7 (amended): `get_turns_to_summarize` returns exactly the
not-yet-summarized turns older than the newest `max(recent_turns, 5)` turns,
in newest-first order (the reverse of the oldest-first order the claim
states). -/
theorem c7_summarize_order_amended (cm : ContextManager) :
    cm.get_turns_to_summarize = (getTurnsToSummarizeSpec cm).reverse := by
  unfold ContextManager.get_turns_to_summarize getTurnsToSummarizeSpec
  rw [List.drop_reverse, List.filter_reverse]

/-- C8 counterexample: `null` arguments are forwarded as *absent* arguments,
not coerced into the single-key wrapper object the claim requires for every
non-object value including null. -/
theorem c8_null_args_cex :
    callToolArguments Json.null = none ∧
    callToolArgumentsSpec Json.null = some [("input", Json.null)] ∧
    callToolArguments Json.null ≠ callToolArgumentsSpec Json.null := by
  refine ⟨rfl, rfl, fun h => ?_⟩
  simp [callToolArguments, callToolArgumentsSpec] at h

/-- C8 (amended): every non-object, non-null JSON value passed as arguments
to `MCPClient::call_tool` is sent as the single-key wrapper object
`{"input": value}`; `null` is sent as absent arguments. -/
theorem c8_wrap_args_amended (j : Json) (hobj : j.isObj = false)
    (hnull : j ≠ Json.null) :
    callToolArguments j = some [("input", j)] ∧
    callToolArguments Json.null = none := by
  refine ⟨?_, rfl⟩
  cases j with
  | null => exact absurd rfl hnull
  | obj fields => simp [Json.isObj] at hobj
  | bool b => rfl
  | num n => rfl
  | str s => rfl
  | arr elems => rfl

/-- C8 witness: the amended statement applied to the string value `"x"`. -/
theorem c8_wrap_args_witness :
    callToolArguments (Json.str "x") = some [("input", Json.str "x")] ∧
    callToolArguments Json.null = none :=
  c8_wrap_args_amended (Json.str "x") rfl (fun h => Json.noConfusion h)

/-- C2: whenever the extracted `command` string contains one of the
always-blocked patterns, `BashTool::execute` returns the structured blocked
result — whose JSON carries `"blocked": true` — and never reaches the
process spawn, whatever the remaining arguments (confirmation flags
included) are. -/
theorem c2_always_blocked (args : Json) (command : String)
    (hcmd : (args.get "command").bind Json.as_str = some command)
    (hpat : ∃ p ∈ dangerousPatterns, strContains command p = true) :
    (∃ p ∈ dangerousPatterns,
      BashTool.execute args = BashAction.reply (blockedResult p) ∧
      (blockedResult p).get "blocked" = some (Json.bool true)) ∧
    ∀ c, BashTool.execute args ≠ BashAction.spawn c := by
  obtain ⟨p, hp, hc⟩ := hpat
  have hfind : (dangerousPatterns.find? (fun q => strContains command q)).isSome := by
    rw [List.find?_isSome]
    exact ⟨p, hp, hc⟩
  obtain ⟨q, hq⟩ := Option.isSome_iff_exists.mp hfind
  have hqmem := List.mem_of_find?_eq_some hq
  have hexec : BashTool.execute args = BashAction.reply (blockedResult q) := by
    simp [BashTool.execute, hcmd, hq]
  refine ⟨⟨q, hqmem, hexec, rfl⟩, fun c h => ?_⟩
  rw [hexec] at h
  exact BashAction.noConfusion h

/-- C2 witness: the always-blocked statement applied to
`"sudo rm -rf /tmp"` with both confirmation flags set to true. -/
theorem c2_always_blocked_witness :
    ((∃ p ∈ dangerousPatterns,
      BashTool.execute blockedArgs = BashAction.reply (blockedResult p) ∧
      (blockedResult p).get "blocked" = some (Json.bool true)) ∧
    ∀ c, BashTool.execute blockedArgs ≠ BashAction.spawn c) :=
  c2_always_blocked blockedArgs "sudo rm -rf /tmp" rfl (by decide)

/-- C5 counterexample: (1) the command `"sudo cat .ssh/id_rsa"` contains the
sensitive pattern `".ssh/"` and carries no `confirm_sensitive` flag, yet
`execute` returns the blocked result (no `needs_confirmation` field at all)
because the always-blocked check runs first; (2) the command
`"rm .ssh/config"` with `confirm_sensitive = true` and no always-blocked
pattern does not proceed to process execution — it is stopped by the
destructive gate. -/
theorem c5_safety_gate_cex :
    (BashTool.execute (Json.obj [("command", Json.str "sudo cat .ssh/id_rsa")]) =
        BashAction.reply (blockedResult "sudo ") ∧
      (blockedResult "sudo ").get "needs_confirmation" = none) ∧
    (BashTool.execute (Json.obj [("command", Json.str "rm .ssh/config"),
        ("confirm_sensitive", Json.bool true)]) =
        BashAction.reply (destructiveResult "rm .ssh/config") ∧
      ∀ c, BashTool.execute (Json.obj [("command", Json.str "rm .ssh/config"),
        ("confirm_sensitive", Json.bool true)]) ≠ BashAction.spawn c) := by
  refine ⟨⟨rfl, rfl⟩, rfl, fun c h => ?_⟩
  rw [show BashTool.execute (Json.obj [("command", Json.str "rm .ssh/config"),
        ("confirm_sensitive", Json.bool true)]) =
      BashAction.reply (destructiveResult "rm .ssh/config") from rfl] at h
  exact BashAction.noConfusion h

/-- C5 (amended): for a command containing no always-blocked pattern,
(1) if it contains a sensitive-access pattern and `confirm_sensitive`
resolves to false, `execute` returns a result with `needs_confirmation` true
and the machine-readable confirmation type `"sensitive_file"`, spawning
nothing; (2) with `confirm_sensitive` resolving to true, it proceeds to
actual process execution provided the destructive gate also passes (the
command contains no destructive pattern, or `confirm_destructive` is set). -/
theorem c5_safety_gate_amended (args : Json) (command : String)
    (hcmd : (args.get "command").bind Json.as_str = some command)
    (hdanger : ∀ p ∈ dangerousPatterns, ¬ strContains command p = true) :
    (((args.get "confirm_sensitive").bind Json.as_bool).getD false = false →
      (∃ p ∈ SENSITIVE_PATTERNS, strContains command p = true) →
      ∃ j, BashTool.execute args = BashAction.reply j ∧
        j.get "needs_confirmation" = some (Json.bool true) ∧
        j.get "confirmation_type" = some (Json.str "sensitive_file") ∧
        ∀ c, BashTool.execute args ≠ BashAction.spawn c) ∧
    (((args.get "confirm_sensitive").bind Json.as_bool).getD false = true →
      (((args.get "confirm_destructive").bind Json.as_bool).getD false = true ∨
        ∀ p ∈ destructivePatterns, ¬ strContains command p = true) →
      BashTool.execute args = BashAction.spawn command) := by
  have hfindD : dangerousPatterns.find? (fun p => strContains command p) = none :=
    List.find?_eq_none.mpr hdanger
  constructor
  · intro hcs hex
    obtain ⟨p, hp, hc⟩ := hex
    have hfindS : (SENSITIVE_PATTERNS.find? (fun q => strContains command q)).isSome := by
      rw [List.find?_isSome]
      exact ⟨p, hp, hc⟩
    obtain ⟨q, hq⟩ := Option.isSome_iff_exists.mp hfindS
    have hexec : BashTool.execute args = BashAction.reply (sensitiveResult q) := by
      simp [BashTool.execute, hcmd, hfindD, hcs, hq]
    refine ⟨sensitiveResult q, hexec, rfl, rfl, fun c h => ?_⟩
    rw [hexec] at h
    exact BashAction.noConfusion h
  · intro hcs hd
    rcases hd with hcd | hnd
    · simp [BashTool.execute, hcmd, hfindD, hcs, hcd]
    · have hfindDes : destructivePatterns.find? (fun p => strContains command p) = none :=
        List.find?_eq_none.mpr hnd
      simp [BashTool.execute, hcmd, hfindD, hcs, hfindDes]

/-- C5 witness: the amended statement applied to `"cat .ssh/id_rsa"`, once
without and once with the `confirm_sensitive` flag. -/
theorem c5_safety_gate_witness :
    (∃ j, BashTool.execute sensitiveArgs = BashAction.reply j ∧
      j.get "needs_confirmation" = some (Json.bool true) ∧
      j.get "confirmation_type" = some (Json.str "sensitive_file") ∧
      ∀ c, BashTool.execute sensitiveArgs ≠ BashAction.spawn c) ∧
    BashTool.execute confirmedSensitiveArgs = BashAction.spawn "cat .ssh/id_rsa" :=
  ⟨(c5_safety_gate_amended sensitiveArgs "cat .ssh/id_rsa" rfl (by decide)).1
      rfl (by decide),
   (c5_safety_gate_amended confirmedSensitiveArgs "cat .ssh/id_rsa" rfl (by decide)).2
      rfl (Or.inr (by decide))⟩

/-- Under an endpoint that always requests a tool call, the agentic loop
burns all its fuel, makes one endpoint call per fuel unit, and ends in the
exhaustion sentinel — whatever tool results and last output it starts
from. -/
theorem loop_always_tool (endpoint : Option (List ToolResult) → CompletionResponse)
    (exec : ToolCall → ToolResult)
    (h : ∀ tr, (endpoint tr).tool_calls ≠ []) :
    ∀ (m : Nat) (tr : Option (List ToolResult)) (last : Option String),
      completeAgenticLoop endpoint exec m tr last = ("[Max tool iterations reached]", m) := by
  intro m
  induction m with
  | zero => intro tr last; rfl
  | succ k ih =>
    intro tr last
    have htc : (endpoint tr).has_tool_calls = true := by
      simp [CompletionResponse.has_tool_calls, h tr]
    simp [completeAgenticLoop, htc, ih]

/-- C4: with a stub endpoint that always answers with a non-empty text and
no tool calls, `complete_agentic` returns that text after exactly one
endpoint call; with a stub that always requests a tool call,
`complete_agentic` with cap `max_iterations` makes exactly `max_iterations`
endpoint calls and returns the sentinel `"[Max tool iterations reached]"`. -/
theorem c4_agentic_termination :
    (∀ (endpoint : Option (List ToolResult) → CompletionResponse)
       (exec : ToolCall → ToolResult) (text : String) (m : Nat),
       (∀ tr, (endpoint tr).content = some text ∧ (endpoint tr).tool_calls = []) →
       text ≠ "" → 0 < m →
       complete_agentic endpoint exec m = (text, 1)) ∧
    (∀ (endpoint : Option (List ToolResult) → CompletionResponse)
       (exec : ToolCall → ToolResult) (m : Nat),
       (∀ tr, (endpoint tr).tool_calls ≠ []) →
       complete_agentic endpoint exec m = ("[Max tool iterations reached]", m)) := by
  constructor
  · intro endpoint exec text m h _ hm
    obtain ⟨k, rfl⟩ : ∃ k, m = k + 1 := ⟨m - 1, by omega⟩
    simp [complete_agentic, completeAgenticLoop, CompletionResponse.has_tool_calls,
      (h none).1, (h none).2]
  · intro endpoint exec m h
    exact loop_always_tool endpoint exec h m none none

/-- C4 witness: the statement applied to the two concrete stub endpoints
with a cap of 3 iterations. -/
theorem c4_agentic_termination_witness :
    complete_agentic stubTextEndpoint stubExec 3 = ("hi", 1) ∧
    complete_agentic stubToolEndpoint stubExec 3 = ("[Max tool iterations reached]", 3) :=
  ⟨c4_agentic_termination.1 stubTextEndpoint stubExec "hi" 3
      (fun _ => ⟨rfl, rfl⟩) (by decide) (by decide),
   c4_agentic_termination.2 stubToolEndpoint stubExec 3
      (fun _ => by simp [stubToolEndpoint])⟩

/-- After executing a non-empty batch of tool results, the
`last_tool_output` register holds the output of the most recently executed
tool, whatever it held before. -/
theorem updateLastOutput_of_ne_nil (rs : List ToolResult) (h : rs ≠ [])
    (init : Option String) :
    updateLastOutput rs init = some (rs.getLast h).output := by
  simp only [updateLastOutput]
  induction rs generalizing init with
  | nil => exact absurd rfl h
  | cons x t ih =>
    cases t with
    | nil => simp
    | cons y u =>
      rw [List.foldl_cons, List.getLast_cons (by simp)]
      exact ih (by simp) _

/-- C9: when the endpoint requests the tool calls `calls` on the first
iteration and afterwards replies without tool calls and with absent or
whitespace-only text, `complete_agentic` returns the output of the most
recently executed tool — the last result of `calls` — instead of the empty
text. -/
theorem c9_last_tool_output (endpoint : Option (List ToolResult) → CompletionResponse)
    (exec : ToolCall → ToolResult) (m : Nat) (hm : 2 ≤ m)
    (calls : List ToolCall) (hcalls : calls ≠ [])
    (hfirst : (endpoint none).tool_calls = calls)
    (hrest : ∀ rs, (endpoint (some rs)).tool_calls = [] ∧
      contentIsEmpty (endpoint (some rs)).content = true) :
    (complete_agentic endpoint exec m).1 =
      ((calls.map exec).getLast (by simpa using hcalls)).output := by
  obtain ⟨k, rfl⟩ : ∃ k, m = k + 2 := ⟨m - 2, by omega⟩
  have hrs : calls.map exec ≠ [] := by simpa using hcalls
  have h1 : (endpoint none).has_tool_calls = true := by
    simp [CompletionResponse.has_tool_calls, hfirst, hcalls]
  have h2 : (endpoint (some (calls.map exec))).has_tool_calls = false := by
    simp [CompletionResponse.has_tool_calls, (hrest (calls.map exec)).1]
  simp [complete_agentic, completeAgenticLoop, h1, h2, hfirst,
    (hrest (calls.map exec)).2, updateLastOutput_of_ne_nil (calls.map exec) hrs]

/-- C9 witness: the statement applied to the stub that requests one tool
call and then answers with whitespace-only text. -/
theorem c9_last_tool_output_witness :
    (complete_agentic stubMixEndpoint stubExec 5).1 = "out-c1" := by
  have h := c9_last_tool_output stubMixEndpoint stubExec 5 (by decide) [sampleCall]
    (by simp) rfl (fun rs =>
      ⟨rfl, show contentIsEmpty (some "  ") = true by decide⟩)
  exact h.trans rfl

/-- Summed token counts of a cons cell. -/
theorem sumTokens_cons (t : ConversationTurn) (l : List ConversationTurn) :
    sumTokens (t :: l) = t.token_count + sumTokens l := by
  simp [sumTokens]

/-- Summed token counts distribute over append. -/
theorem sumTokens_append (l1 l2 : List ConversationTurn) :
    sumTokens (l1 ++ l2) = sumTokens l1 + sumTokens l2 := by
  simp [sumTokens]

/-- Splitting a turn list by a predicate splits its summed token counts. -/
theorem sumTokens_filter_partition (p : ConversationTurn → Bool)
    (l : List ConversationTurn) :
    sumTokens (l.filter p) + sumTokens (l.filter (fun t => !p t)) = sumTokens l := by
  induction l with
  | nil => rfl
  | cons x t ih =>
    by_cases hx : p x = true <;>
      simp [List.filter_cons, hx, sumTokens_cons] <;> omega

/-- With the `None` or `Summarization` strategy, `compress` changes
nothing. -/
theorem compress_of_no_mask (cm : ContextManager)
    (hs : cm.strategy = ContextStrategy.none ∨
      cm.strategy = ContextStrategy.summarization) :
    cm.compress = cm := by
  rcases hs with h | h <;> simp [ContextManager.compress, h]

/-- With the `None` or `Summarization` strategy, `add_turn` just estimates
the turn, accumulates its tokens and appends it. -/
theorem add_turn_of_no_mask (cm : ContextManager) (t : ConversationTurn)
    (hs : cm.strategy = ContextStrategy.none ∨
      cm.strategy = ContextStrategy.summarization) :
    cm.add_turn t = { cm with
      total_tokens := cm.total_tokens + t.estimate_tokens.token_count
      turns := cm.turns ++ [t.estimate_tokens] } := by
  simp only [ContextManager.add_turn]
  rw [compress_of_no_mask ({ cm with
      total_tokens := cm.total_tokens + t.estimate_tokens.token_count
      turns := cm.turns ++ [t.estimate_tokens] } : ContextManager) hs, ite_self]

/-- `apply_summary` preserves the turns-only token accounting: removing the
covered turns' tokens and adding the summary's matches inserting the
summary turn into the kept turns. -/
theorem apply_summary_token_invariant (cm : ContextManager) (s : ConversationSummary)
    (hinv : cm.total_tokens = sumTokens cm.turns) :
    (cm.apply_summary s).total_tokens = sumTokens (cm.apply_summary s).turns := by
  have hpart := sumTokens_filter_partition
    (fun t => s.turns_covered.contains t.id) cm.turns
  simp only [ContextManager.apply_summary, sumTokens_cons]
  rw [hinv]
  have hb : ((cm.turns.filter (fun t => s.turns_covered.contains t.id)).map
      (fun t => t.token_count)).sum =
      sumTokens (cm.turns.filter (fun t => s.turns_covered.contains t.id)) := rfl
  have hc : (ContextManager.summaryTurn s).token_count = s.token_count := rfl
  rw [hb, hc]
  omega

/-- One `add_turn`/`apply_summary` call preserves the turns-only token
accounting under a non-masking strategy. -/
theorem run_token_invariant (op : ContextOp) (cm : ContextManager)
    (hs : cm.strategy = ContextStrategy.none ∨
      cm.strategy = ContextStrategy.summarization)
    (hinv : cm.total_tokens = sumTokens cm.turns) :
    (ContextOp.run cm op).total_tokens = sumTokens (ContextOp.run cm op).turns := by
  cases op with
  | addTurn t =>
    rw [ContextOp.run, add_turn_of_no_mask cm t hs]
    simp [sumTokens_append, sumTokens_cons, sumTokens, hinv]
  | applySummary s => exact apply_summary_token_invariant cm s hinv

/-- Every operation preserves the configured strategy. -/
theorem run_strategy_eq (cm : ContextManager) (op : ContextOp) :
    (ContextOp.run cm op).strategy = cm.strategy := by
  cases op with
  | addTurn t =>
    simp only [ContextOp.run, ContextManager.add_turn]
    split
    · show ContextManager.strategy _ = _
      simp only [ContextManager.compress, ContextManager.apply_hybrid_compression,
        ContextManager.apply_sliding_window]
      split <;> first | rfl | (split <;> rfl)
    · rfl
  | applySummary s => rfl

/-- The turns-only token accounting holds after any sequence of
`add_turn`/`apply_summary` calls under a non-masking strategy. -/
theorem runOps_token_invariant (ops : List ContextOp) (cm : ContextManager)
    (hs : cm.strategy = ContextStrategy.none ∨
      cm.strategy = ContextStrategy.summarization)
    (hinv : cm.total_tokens = sumTokens cm.turns) :
    (runOps cm ops).total_tokens = sumTokens (runOps cm ops).turns := by
  induction ops generalizing cm with
  | nil => exact hinv
  | cons op rest ih =>
    simp only [runOps, List.foldl_cons]
    exact ih _ (by rw [run_strategy_eq]; exact hs)
      (run_token_invariant op cm hs hinv)

/-- C1 counterexample: one `add_turn` ("hello", 1 token) followed by one
`apply_summary` (5 tokens, covering nothing) yields
`stats().estimated_tokens = 6`, while the claimed sum counts the summary
twice — once as the inserted summary turn and once in the summaries list —
and totals 11. -/
theorem c1_token_accounting_cex :
    cmSummaryRun.stats.estimated_tokens = 6 ∧
    sumTokens cmSummaryRun.turns + sumSummaryTokens cmSummaryRun.summaries = 11 ∧
    cmSummaryRun.stats.estimated_tokens ≠
      sumTokens cmSummaryRun.turns + sumSummaryTokens cmSummaryRun.summaries := by
  refine ⟨rfl, rfl, by decide⟩

/-- C1 (amended): for every sequence of `add_turn` and `apply_summary`
calls on a `ContextManager` whose strategy performs no masking (`None` or
`Summarization`), `stats().estimated_tokens` equals the sum of
`token_count` over all currently-held turns — each applied summary entering
that sum exactly once, through the system summary turn its application
inserts, not a second time from the summaries list.  (Under the masking
strategies, masking a turn that was estimated below 10 tokens can push the
turn sum above the running total, so the invariant is stated for the
non-masking strategies the `apply_summary` pathway belongs to.) -/
theorem c1_token_accounting_amended (strategy : ContextStrategy)
    (hs : strategy = ContextStrategy.none ∨ strategy = ContextStrategy.summarization)
    (max_tokens : Nat) (ops : List ContextOp) :
    (runOps ((ContextManager.new.with_strategy strategy).with_max_tokens max_tokens)
        ops).stats.estimated_tokens =
      sumTokens (runOps ((ContextManager.new.with_strategy strategy).with_max_tokens
        max_tokens) ops).turns :=
  runOps_token_invariant ops _ hs rfl

/-- C1 witness: the amended invariant at the summarization strategy, a
1000-token budget, and a run of one user turn followed by a summary covering
it. -/
theorem c1_token_accounting_witness :
    (runOps ((ContextManager.new.with_strategy ContextStrategy.summarization).with_max_tokens
        1000) tokenWitnessOps).stats.estimated_tokens =
      sumTokens (runOps ((ContextManager.new.with_strategy
        ContextStrategy.summarization).with_max_tokens 1000) tokenWitnessOps).turns :=
  c1_token_accounting_amended ContextStrategy.summarization (Or.inr rfl) 1000 tokenWitnessOps

/-- The masking pass leaves a summarized turn in place, untouched. -/
theorem mem_maskOldest_of_summarized {t : ConversationTurn}
    (ht : t.is_summarized = true) :
    ∀ (ts : List ConversationTurn) (k : Nat), t ∈ ts →
      t ∈ (ContextManager.maskOldest ts k).1 := by
  intro ts
  induction ts with
  | nil => intro k h; cases h
  | cons x rest ih =>
    intro k h
    cases k with
    | zero => simpa [ContextManager.maskOldest] using h
    | succ k' =>
      rw [ContextManager.maskOldest]
      rcases List.mem_cons.mp h with rfl | hr
      · have hc : (!t.is_masked && !t.is_summarized) = false := by simp [ht]
        simp [hc]
      · by_cases hb : (!x.is_masked && !x.is_summarized) = true
        · simp only [hb, if_true]
          exact List.mem_cons_of_mem _ (ih k' hr)
        · simp only [Bool.not_eq_true] at hb
          simp only [hb, if_false]
          exact List.mem_cons_of_mem _ (ih k' hr)

/-- Sliding-window masking keeps every summarized turn in the deque. -/
theorem mem_apply_sliding_window_of_summarized (cm : ContextManager)
    {t : ConversationTurn} (ht : t.is_summarized = true) (h : t ∈ cm.turns) :
    t ∈ cm.apply_sliding_window.turns := by
  simp only [ContextManager.apply_sliding_window]
  split
  · exact h
  · exact mem_maskOldest_of_summarized ht _ _ h

/-- Compression (under any strategy) keeps every summarized turn. -/
theorem mem_compress_of_summarized (cm : ContextManager)
    {t : ConversationTurn} (ht : t.is_summarized = true) (h : t ∈ cm.turns) :
    t ∈ cm.compress.turns := by
  simp only [ContextManager.compress, ContextManager.apply_hybrid_compression]
  split
  · exact h
  · exact mem_apply_sliding_window_of_summarized cm ht h
  · exact h
  · exact mem_apply_sliding_window_of_summarized cm ht h

/-- `add_turn` keeps every summarized turn already in the deque. -/
theorem mem_add_turn_of_summarized (cm : ContextManager) (t0 : ConversationTurn)
    {t : ConversationTurn} (ht : t.is_summarized = true) (h : t ∈ cm.turns) :
    t ∈ (cm.add_turn t0).turns := by
  simp only [ContextManager.add_turn]
  split
  · exact mem_compress_of_summarized _ ht (List.mem_append_left _ h)
  · exact List.mem_append_left _ h

/-- `apply_summary` keeps every turn whose id is not in the covered set. -/
theorem mem_apply_summary_of_not_covered (cm : ContextManager)
    (s2 : ConversationSummary) {t : ConversationTurn}
    (hid : s2.turns_covered.contains t.id = false) (h : t ∈ cm.turns) :
    t ∈ (cm.apply_summary s2).turns := by
  simp only [ContextManager.apply_summary]
  exact List.mem_cons_of_mem _ (List.mem_filter.mpr ⟨h, by simpa using hid⟩)

/-- A summarized turn survives any later sequence of `add_turn` and
`apply_summary` calls whose summaries do not cover its id. -/
theorem mem_runOps_of_summarized (ops : List ContextOp) :
    ∀ (cm : ContextManager) {t : ConversationTurn},
      t.is_summarized = true →
      (∀ s2, ContextOp.applySummary s2 ∈ ops → s2.turns_covered.contains t.id = false) →
      t ∈ cm.turns → t ∈ (runOps cm ops).turns := by
  induction ops with
  | nil => intro cm t _ _ h; exact h
  | cons op rest ih =>
    intro cm t ht hops h
    simp only [runOps, List.foldl_cons]
    refine ih _ ht (fun s2 hs2 => hops s2 (List.mem_cons_of_mem _ hs2)) ?_
    cases op with
    | addTurn t0 => exact mem_add_turn_of_summarized cm t0 ht h
    | applySummary s2 =>
      exact mem_apply_summary_of_not_covered cm s2
        (hops s2 (List.mem_cons_self _ _)) h

/-- The summaries list only ever grows. -/
theorem mem_summaries_runOps (ops : List ContextOp) :
    ∀ (cm : ContextManager) {s : ConversationSummary},
      s ∈ cm.summaries → s ∈ (runOps cm ops).summaries := by
  induction ops with
  | nil => intro cm s h; exact h
  | cons op rest ih =>
    intro cm s h
    simp only [runOps, List.foldl_cons]
    refine ih _ ?_
    cases op with
    | addTurn t0 =>
      simp only [ContextOp.run, ContextManager.add_turn]
      split
      · show s ∈ ContextManager.summaries _
        simp only [ContextManager.compress, ContextManager.apply_hybrid_compression,
          ContextManager.apply_sliding_window]
        split <;> first | exact h | (split <;> exact h)
      · exact h
    | applySummary s2 =>
      simp only [ContextOp.run, ContextManager.apply_summary]
      exact List.mem_append_left _ h

/-- A stored summary's rendering appears in `get_messages`. -/
theorem summaryMessage_mem_get_messages (cm : ContextManager)
    {s : ConversationSummary} (h : s ∈ cm.summaries) :
    ContextManager.summaryMessage s ∈ cm.get_messages := by
  unfold ContextManager.get_messages
  exact List.mem_append_left _
    (List.mem_append_right _ (List.mem_map_of_mem _ h))

/-- A held turn's chat message appears in `get_messages`. -/
theorem turn_message_mem_get_messages (cm : ContextManager)
    {t : ConversationTurn} (h : t ∈ cm.turns) :
    t.to_chat_message ∈ cm.get_messages := by
  unfold ContextManager.get_messages
  exact List.mem_append_right _ (List.mem_map_of_mem _ h)

/-- The summaries-list rendering and the summary turn's message differ (their
contents start `"[Previous …"` versus `"[Conversation …"`). -/
theorem summaryMessage_ne_turn_message (s : ConversationSummary) :
    ContextManager.summaryMessage s ≠
      (ContextManager.summaryTurn s).to_chat_message := by
  intro h
  have hc := congrArg ChatMessage.content h
  simp only [ContextManager.summaryMessage, ContextManager.summaryTurn,
    ChatMessage.system, ConversationTurn.to_chat_message, Option.some.injEq] at hc
  have hd := congrArg String.data hc
  simp [String.data_append] at hd

/-- C10: after `apply_summary(s)` — and after any further `add_turn` and
`apply_summary` calls whose summaries do not cover the summary turn's id —
`get_messages()` contains the text of `s` twice: once as the system message
rendered from the stored summaries list (with its key facts) and once as the
system-role summary turn inserted at the front of the turn sequence; the two
messages are distinct. -/
theorem c10_summary_rendered_twice (cm : ContextManager) (s : ConversationSummary)
    (ops : List ContextOp)
    (hops : ∀ s2, ContextOp.applySummary s2 ∈ ops →
      s2.turns_covered.contains s.id = false) :
    ContextManager.summaryMessage s ∈ (runOps (cm.apply_summary s) ops).get_messages ∧
    (ContextManager.summaryTurn s).to_chat_message ∈
      (runOps (cm.apply_summary s) ops).get_messages ∧
    ContextManager.summaryMessage s ≠ (ContextManager.summaryTurn s).to_chat_message := by
  refine ⟨?_, ?_, summaryMessage_ne_turn_message s⟩
  · refine summaryMessage_mem_get_messages _ (mem_summaries_runOps ops _ ?_)
    simp only [ContextManager.apply_summary]
    exact List.mem_append_right _ (List.mem_singleton.mpr rfl)
  · refine turn_message_mem_get_messages _ (mem_runOps_of_summarized ops _ rfl hops ?_)
    simp only [ContextManager.apply_summary]
    exact List.mem_cons_self _ _

/-- C10 witness: the statement applied to a fresh manager, a concrete
summary, and one subsequent `add_turn`. -/
theorem c10_summary_rendered_twice_witness :
    ContextManager.summaryMessage renderWitnessSummary ∈
      (runOps (ContextManager.new.apply_summary renderWitnessSummary)
        renderWitnessOps).get_messages ∧
    (ContextManager.summaryTurn renderWitnessSummary).to_chat_message ∈
      (runOps (ContextManager.new.apply_summary renderWitnessSummary)
        renderWitnessOps).get_messages ∧
    ContextManager.summaryMessage renderWitnessSummary ≠
      (ContextManager.summaryTurn renderWitnessSummary).to_chat_message :=
  c10_summary_rendered_twice ContextManager.new renderWitnessSummary renderWitnessOps
    (fun s2 hs2 => by simp [renderWitnessOps] at hs2)

end Rustclaw
